import Mathlib

/-!
Verification development for the Recall OS repository (a browser-based
personal-memory workspace).  The definitions below are a shallow embedding of
the TypeScript sources: pure string manipulation is modelled on lists of
characters with JavaScript semantics, the remote AI service is modelled as an
explicit outcome parameter (the network call either throws or returns a
response object), and React state updates are modelled as pure functions from
state to state.  Timestamps are naturals, canvas coordinates are rationals.
-/

/-! ## JavaScript string primitives -/

/-- Truthiness-based default for JavaScript `s || d` on strings: the empty
string is falsy. -/
def strOr (s d : String) : String := if s = "" then d else s

/-- Truthiness-based default for `o || d` where `o` may be `undefined`. -/
def strOrOpt (o : Option String) (d : String) : String :=
  match o with
  | some s => strOr s d
  | none => d

/-- Truthiness of an optional string field, as tested by `if (x)` in
JavaScript: `undefined` and the empty string are falsy. -/
def optTruthy (o : Option String) : Bool :=
  match o with
  | some s => s != ""
  | none => false

/-- Decidable, kernel-reducible test that the first list is a prefix of the
second. -/
def isPrefixList : List Char → List Char → Bool
  | [], _ => true
  | _ :: _, [] => false
  | p :: ps, c :: cs => p == c && isPrefixList ps cs

/-- JavaScript `s.startsWith(p)`. -/
def jsStartsWith (s p : String) : Bool := isPrefixList p.toList s.toList

/-- JavaScript `s.endsWith(p)`. -/
def jsEndsWith (s p : String) : Bool := isPrefixList p.toList.reverse s.toList.reverse

/-- Substring containment on character lists. -/
def containsList : List Char → List Char → Bool
  | [], pat => pat.isEmpty
  | c :: cs, pat => isPrefixList pat (c :: cs) || containsList cs pat

/-- JavaScript `s.includes(sub)`. -/
def jsIncludes (s sub : String) : Bool := containsList s.toList sub.toList

/-- JavaScript `s.substring(0, n)` (also models truncation such as
`content.substring(0, 2000)`). -/
def jsSubstringTo (s : String) (n : Nat) : String := String.mk (s.toList.take n)

/-- Whitespace class used by the JavaScript regular expression `\s` and by
`String.prototype.trim`, restricted to the ASCII code points that can occur in
the repository data (space, tab, line feed, carriage return, vertical tab,
form feed). -/
def isJsWs (c : Char) : Bool :=
  c == ' ' || c == '\t' || c == '\n' || c == '\r' || c == '\x0b' || c == '\x0c'

/-- JavaScript `s.trim()` on a character list. -/
def jsTrimList (s : List Char) : List Char :=
  ((s.dropWhile isJsWs).reverse.dropWhile isJsWs).reverse

/-- JavaScript `s.trim()`. -/
def jsTrim (s : String) : String := String.mk (jsTrimList s.toList)

/-- Fuel-indexed worker for global literal replacement (JavaScript
`s.replace(/lit/g, rep)` for a literal pattern: non-overlapping, left to
right).  The fuel is always instantiated with the length of the subject, which
suffices because every step consumes at least one character. -/
def replaceAux (pat rep : List Char) : Nat → List Char → List Char
  | _, [] => []
  | 0, s => s
  | fuel + 1, c :: cs =>
    if isPrefixList pat (c :: cs) then
      rep ++ replaceAux pat rep fuel (List.drop pat.length (c :: cs))
    else
      c :: replaceAux pat rep fuel cs

/-- Global replacement of a literal pattern in a character list. -/
def replaceAllList (s pat rep : List Char) : List Char := replaceAux pat rep s.length s

/-- Splits a character list at the first occurrence of the character, or
returns none when the character does not occur. -/
def breakAtGt : List Char → Option (List Char × List Char)
  | [] => none
  | c :: cs =>
    if c = '>' then some ([], cs)
    else (breakAtGt cs).map (fun pr => (c :: pr.1, pr.2))

/-- Fuel-indexed worker for the tag-stripping regular expression replacement
`.replace(/<[^>]+>/g, "")`: from every opening angle bracket, a nonempty run
of characters other than a closing angle bracket followed by a closing angle
bracket is removed; an opening bracket with no such match is kept verbatim. -/
def stripAux : Nat → List Char → List Char
  | _, [] => []
  | 0, s => s
  | fuel + 1, c :: cs =>
    if c = '<' then
      match breakAtGt cs with
      | some (before, after) =>
        if before = [] then c :: stripAux fuel cs else stripAux fuel after
      | none => c :: stripAux fuel cs
    else
      c :: stripAux fuel cs

/-- Removal of HTML tags, modelling `.replace(/<[^>]+>/g, "")`. -/
def stripTagsList (s : List Char) : List Char := stripAux s.length s

/-- Whitespace collapsing, modelling `.replace(/\s+/g, " ")`: every maximal
run of whitespace becomes a single space. -/
def collapseWsList : List Char → List Char
  | [] => []
  | [c] => if isJsWs c then [' '] else [c]
  | c1 :: c2 :: rest =>
    if isJsWs c1 && isJsWs c2 then collapseWsList (c2 :: rest)
    else (if isJsWs c1 then ' ' else c1) :: collapseWsList (c2 :: rest)

/-! ## Domain model

The shared type definitions live in the repository file types.ts, which is
imported by every source file but is not itself part of the given sources;
the structures below follow the data-model section of the specification and
the field accesses visible throughout the sources. -/

/-- Content archetypes of a memory (enum RecallType in types.ts). -/
inductive RecallType
  | TEXT
  | DOCUMENT
  | IMAGE
  | AUDIO
  | VIDEO
  | HYBRID
deriving DecidableEq, Repr

open RecallType

/-- Optional structured financial extraction inside memory metadata. -/
structure FinancialInfo where
  amount : Option ℚ := none
  currency : Option String := none
  category : Option String := none
  entity : Option String := none
deriving DecidableEq, Repr

/-- Metadata record of a memory. -/
structure RecallMetadata where
  tags : List String
  mood : String
  sourceApp : Option String := none
  location : Option String := none
  financial : Option FinancialInfo := none
deriving DecidableEq, Repr

/-- Version-history entry (SemanticDiff in types.ts): an append-only snapshot
with provenance. -/
structure SemanticDiff where
  id : String
  timestamp : Nat
  description : String
  content : Option String
  previewImage : Option String := none
  author : String
deriving DecidableEq, Repr

/-- Memory record (RecallFile in types.ts). -/
structure RecallFile where
  id : String
  title : String
  description : String
  type : RecallType
  content : String
  thumbnail : String
  createdAt : Nat
  updatedAt : Nat
  metadata : RecallMetadata
  history : List SemanticDiff
  x : Option ℚ := none
  y : Option ℚ := none
deriving DecidableEq, Repr

/-! ## AI integration layer (src/services/geminiService.ts)

Every operation of the service performs one remote call.  The call is
modelled by an explicit outcome argument: either the call threw, or it
returned a response whose relevant projections (text, parsed JSON, tool
calls) are carried by the outcome constructor.  The try/catch structure of
each source function is mirrored by an Except-valued body plus a total
wrapper. -/

/-- Sentinel prefix detecting a serialized spreadsheet payload. -/
def spreadsheetSentinel : String := "\x7b\"appType\":\"spreadsheet\""

/-- One sheet of a spreadsheet payload. -/
structure SheetData where
  name : String
  html : String
deriving DecidableEq, Repr

/-- Spreadsheet payload carried in a memory content string as JSON. -/
structure SpreadsheetPayload where
  appType : String
  sheets : List SheetData
deriving DecidableEq, Repr

/-- Plain-text rendering of one sheet in simplifySpreadsheetForAI: row ends
become newlines, cell ends become separators, remaining tags are stripped,
whitespace is collapsed, and the result is trimmed. -/
def sheetToText (html : String) : String :=
  String.mk (jsTrimList (collapseWsList (stripTagsList
    (replaceAllList (replaceAllList html.toList "</tr>".toList "\n".toList)
      "</td>".toList " | ".toList))))

/-- Accumulation of the per-sheet summaries of simplifySpreadsheetForAI
(the forEach over data.sheets, each sheet truncated to 3000 characters). -/
def sheetBlocks : List SheetData → String
  | [] => ""
  | sheet :: rest =>
    "\n--- SHEET: " ++ sheet.name ++ " ---\n"
      ++ jsSubstringTo (sheetToText sheet.html) 3000 ++ sheetBlocks rest

/-- Embedding of simplifySpreadsheetForAI (geminiService.ts lines 245 to
269).  The outcome of JSON.parse on the content is passed explicitly: none
models a parse exception, which the catch block answers with the 2000
character truncation. -/
def simplifySpreadsheetForAI (content : String)
    (parsed : Option SpreadsheetPayload) : String :=
  if ¬ (jsStartsWith content spreadsheetSentinel = true) then jsSubstringTo content 2000
  else
    match parsed with
    | none => jsSubstringTo content 2000
    | some data =>
      if data.appType ≠ "spreadsheet" then jsSubstringTo content 2000
      else
        data.sheets.foldl
          (fun summary sheet =>
            summary ++ "\n--- SHEET: " ++ sheet.name ++ " ---\n"
              ++ jsSubstringTo (sheetToText sheet.html) 3000)
          "SPREADSHEET DATA (Multiple Tabs):\n"

/-- Text classification used by ingestRecall: text MIME types plus a few
filename extensions. -/
def isTextLike (mimeType filename : String) : Bool :=
  jsStartsWith mimeType "text/" || jsIncludes mimeType "json"
    || jsIncludes mimeType "javascript" || jsIncludes mimeType "xml"
    || jsEndsWith filename ".md" || jsEndsWith filename ".ts"
    || jsEndsWith filename ".tsx"

/-- Binary classification used by ingestRecall. -/
def isSupportedBinary (mimeType : String) : Bool :=
  jsStartsWith mimeType "image/" || jsStartsWith mimeType "video/"
    || jsStartsWith mimeType "audio/" || (mimeType == "application/pdf")

/-- Text part submitted to the AI service by ingestRecall (geminiService.ts
lines 305 to 321): binary data goes in an inline-data part instead (none
here), spreadsheet content is flattened first, and text-like content is
submitted verbatim. -/
def ingestSubmittedTextPart (data mimeType filename : String)
    (parsed : Option SpreadsheetPayload) : Option String :=
  if isSupportedBinary mimeType then none
  else if jsStartsWith data spreadsheetSentinel then
    some ("SPREADSHEET CONTENT (Parsed):\n" ++ simplifySpreadsheetForAI data parsed)
  else if isTextLike mimeType filename then
    some ("FILE CONTENT:\n" ++ data)
  else none

/-- Parsed JSON analysis object returned by the ingestion model; every field
may be absent. -/
structure IngestAnalysis where
  title : Option String := none
  description : Option String := none
  tags : Option (List String) := none
  mood : Option String := none
  financial : Option FinancialInfo := none
deriving DecidableEq, Repr

/-- Outcome of the remote call made by ingestRecall: the call threw, the
response had no text, the text failed JSON.parse, or it parsed. -/
inductive IngestAiOutcome
  | threw
  | noText
  | badJson (raw : String)
  | parsed (a : IngestAnalysis)
deriving DecidableEq, Repr

/-- Failure test on the ingestion outcome: everything except a parsed
analysis ends in the catch block. -/
def ingestAiFailed : IngestAiOutcome → Bool
  | .parsed _ => false
  | _ => true

/-- Partial memory record returned by ingestRecall. -/
structure IngestPartial where
  title : String
  description : String
  type : RecallType
  metadata : RecallMetadata
deriving DecidableEq, Repr

/-- Try-block of ingestRecall (geminiService.ts lines 274 to 352): an
exception anywhere in the body (network call, missing text, JSON.parse)
is an error value. -/
def ingestRecallTry (data mimeType filename : String)
    (ai : IngestAiOutcome) : Except Unit IngestPartial :=
  match ai with
  | .threw => .error ()
  | .noText => .error ()
  | .badJson _ => .error ()
  | .parsed a =>
    let isImage := jsStartsWith mimeType "image/"
    let isVideo := jsStartsWith mimeType "video/"
    let isAudio := jsStartsWith mimeType "audio/"
    let isSpreadsheet := jsStartsWith data spreadsheetSentinel
    let isText := isTextLike mimeType filename
    let t : RecallType :=
      if isImage then .IMAGE
      else if isVideo then .VIDEO
      else if isAudio then AUDIO
      else if isText then .TEXT
      else .DOCUMENT
    .ok
      { title := strOrOpt a.title filename
      , description := strOrOpt a.description "Data successfully ingested."
      , type := t
      , metadata :=
        { tags := a.tags.getD []
        , mood := strOrOpt a.mood "neutral"
        , location := some "Unknown"
        , sourceApp := some (if isSpreadsheet then "Spreadsheet Engine" else "Drag & Drop")
        , financial := some (a.financial.getD {}) } }

/-- Embedding of ingestRecall (geminiService.ts lines 274 to 362): the catch
block turns every failure into the fixed fallback record, so the function is
total and never propagates an exception. -/
def ingestRecall (data mimeType filename : String)
    (ai : IngestAiOutcome) : IngestPartial :=
  match ingestRecallTry data mimeType filename ai with
  | .ok v => v
  | .error _ =>
    { title := filename
    , description := "Imported file."
    , type := .DOCUMENT
    , metadata := { tags := ["file"], mood := "neutral" } }

/-- Outcome of a remote call whose only consumed projection is the optional
response text. -/
inductive AiTextOutcome
  | threw
  | ok (text : Option String)
deriving DecidableEq, Repr

/-- Embedding of editSpecificSelection (geminiService.ts lines 391 to 423).
On success the reply text is trimmed, with the original selection as the
fallback for a missing or empty reply; the catch block logs and re-throws,
which the error value models. -/
def editSpecificSelection (fullContext selection instruction : String)
    (ai : AiTextOutcome) : Except Unit String :=
  match ai with
  | .ok t =>
    .ok (match t with
      | some s => strOr (jsTrim s) selection
      | none => selection)
  | .threw => .error ()

/-! ## Agentic core (geminiService.ts lines 474 to 618) -/

/-- One item of the organizeCanvas layout argument. -/
structure LayoutItem where
  id : String
  x : ℚ
  y : ℚ
deriving DecidableEq, Repr

/-- Named arguments of a tool call as read by runAgenticCommand; the
arguments of the sourceIds and tags fields may be absent (the source
defaults them with an empty-list fallback). -/
structure ToolArgs where
  id : String := ""
  newContent : String := ""
  reasoning : String := ""
  title : String := ""
  type : String := ""
  content : String := ""
  sourceIds : Option (List String) := none
  tags : Option (List String) := none
  layout : List LayoutItem := []
deriving DecidableEq, Repr

/-- Function call attached to a response part. -/
structure ToolCall where
  name : String
  args : ToolArgs
deriving DecidableEq, Repr

/-- Response part of the agent call; only the functionCall projection is
consumed by the dispatch. -/
structure AgentPart where
  functionCall : Option ToolCall := none
deriving DecidableEq, Repr

/-- Outcome of the remote agent call: threw, or returned candidate parts
plus the aggregated response text. -/
inductive AgentAiOutcome
  | threw
  | ok (parts : List AgentPart) (text : Option String)
deriving DecidableEq, Repr

/-- Tagged result type AgentResponse of the agent endpoint. -/
inductive AgentResponse
  | chat (message : String)
  | update (id content reasoning : String)
  | create (title memoryType content reasoning : String)
      (sourceIds tags : List String)
  | move (layout : List LayoutItem) (reasoning : String)
deriving DecidableEq, Repr

/-- First function call found among the response parts, as selected by
candidate.content.parts.find(p => p.functionCall). -/
def firstToolCall (parts : List AgentPart) : Option ToolCall :=
  (parts.find? (fun p => p.functionCall.isSome)).bind (fun p => p.functionCall)

/-- Embedding of runAgenticCommand (geminiService.ts lines 535 to 618).  The
context snapshot and prompt assembled from the command and the memory list
only feed the remote call, which the outcome argument models, so they do not
appear in the dispatch below; the catch block answers every thrown error
with a fixed chat message, making the function total. -/
def runAgenticCommand (command : String) (memories : List RecallFile)
    (ai : AgentAiOutcome) : AgentResponse :=
  match ai with
  | .threw => .chat "Agent failed to connect to neural core."
  | .ok parts text =>
    match firstToolCall parts with
    | some tc =>
      if tc.name = "updateMemoryContent" then
        .update tc.args.id tc.args.newContent tc.args.reasoning
      else if tc.name = "createMemory" then
        .create tc.args.title tc.args.type tc.args.content tc.args.reasoning
          (tc.args.sourceIds.getD []) (tc.args.tags.getD [])
      else if tc.name = "organizeCanvas" then
        .move tc.args.layout tc.args.reasoning
      else
        .chat (strOrOpt text "I\x27ve analyzed the data but no action was required.")
    | none =>
      .chat (strOrOpt text "I\x27ve analyzed the data but no action was required.")

/-! ## Application shell (src/App.tsx and src/unnamed/part_004) -/

/-- Uniform jitter of getSmartPosition: Math.random() * 120 - 60, where the
argument is the Math.random() sample in the unit interval. -/
def jitter (r : ℚ) : ℚ := r * 120 - 60

/-- Sum of the horizontal coordinates of a peer list, absent coordinates
counted as zero (peers.reduce((acc, m) => acc + (m.x || 0), 0)). -/
def peerSumX (peers : List RecallFile) : ℚ :=
  peers.foldl (fun acc m => acc + m.x.getD 0) 0

/-- Sum of the vertical coordinates of a peer list, absent coordinates
counted as zero. -/
def peerSumY (peers : List RecallFile) : ℚ :=
  peers.foldl (fun acc m => acc + m.y.getD 0) 0

/-- Embedding of getSmartPosition (App.tsx lines 28 to 60).  The two
Math.random() samples feeding the two jitter() calls are passed explicitly
as rx and ry. -/
def getSmartPosition (rx ry : ℚ) (t : RecallType)
    (currentMemories : List RecallFile) : ℚ × ℚ :=
  let peers := currentMemories.filter (fun m => m.type = t)
  if 0 < peers.length then
    (peerSumX peers / peers.length + jitter rx,
     peerSumY peers / peers.length + jitter ry)
  else
    match t with
    | .IMAGE | .HYBRID => (900 + jitter rx, 200 + jitter ry)
    | .DOCUMENT => (200 + jitter rx, 200 + jitter ry)
    | AUDIO | .VIDEO => (200 + jitter rx, 700 + jitter ry)
    | .TEXT => (600 + jitter rx, 500 + jitter ry)

/-- Archetype anchors named by the specification for the no-peers branch of
the smart-position heuristic. -/
def anchorFor : RecallType → ℚ × ℚ
  | .IMAGE | .HYBRID => (900, 200)
  | .DOCUMENT => (200, 200)
  | AUDIO | .VIDEO => (200, 700)
  | .TEXT => (600, 500)

/-- Memory record built for one ingested file by handleDrop
(src/unnamed/part_004 lines 437 to 462): the final type forces documents
and spreadsheets to DOCUMENT, the thumbnail mirrors the content exactly for
image classifications, and the history is seeded with one entry. -/
def buildIngestMemory (analysisTitle analysisDescription : Option String)
    (analysisType : Option RecallType) (metadata : RecallMetadata)
    (content fileName : String) (isDocx isExcel : Bool) (pos : ℚ × ℚ)
    (newId histId : String) (now : Nat) : RecallFile :=
  let t : RecallType :=
    if isDocx || isExcel then .DOCUMENT else analysisType.getD .DOCUMENT
  { id := newId
  , title := strOrOpt analysisTitle fileName
  , description := strOrOpt analysisDescription ""
  , type := t
  , content := content
  , thumbnail := if analysisType = some .IMAGE then content else ""
  , createdAt := now
  , updatedAt := now
  , metadata := metadata
  , history := [⟨histId, now, "Original Import", some content, none, "user"⟩]
  , x := some pos.1
  , y := some pos.2 }

/-- Per-memory effect of the agent update branch of handleCommand
(src/unnamed/part_004 lines 500 to 519): the matching record gets the new
content, a refreshed updatedAt and an appended history entry; the thumbnail
is left untouched. -/
def shellAgentUpdate (resId resContent resReasoning histId : String)
    (now : Nat) (m : RecallFile) : RecallFile :=
  if m.id = resId then
    { m with
      content := resContent
    , updatedAt := now
    , history := m.history ++ [⟨histId, now, resReasoning, some resContent, none, "gemini"⟩] }
  else m

/-- Memory record built by the agent create branch of handleCommand
(src/unnamed/part_004 lines 520 to 562); the unchecked memoryType cast with
its TEXT fallback is modelled by an optional archetype. -/
def shellAgentCreate (resTitle resContent resReasoning : String)
    (resType : Option RecallType) (resTags : Option (List String))
    (pos : ℚ × ℚ) (newId histId : String) (now : Nat) : RecallFile :=
  let newType := resType.getD .TEXT
  { id := newId
  , title := resTitle
  , description := resReasoning
  , type := newType
  , content := resContent
  , thumbnail := if newType = .IMAGE then resContent else ""
  , createdAt := now
  , updatedAt := now
  , metadata :=
    { tags := resTags.getD ["agent-created"]
    , mood := "neutral"
    , sourceApp := some "Gemini Agent" }
  , history := [⟨histId, now, "Created by Agent", some resContent, none, "gemini"⟩]
  , x := some pos.1
  , y := some pos.2 }

/-! ## Memory viewer (src/unnamed/part_000 and src/components/MemoryViewer.tsx) -/

/-- Viewer-local selection state. -/
structure SelectionState where
  text : String
  start : Nat
  stop : Nat
deriving DecidableEq, Repr

/-- Viewer-local state: the memory shown, the content being displayed
(possibly a historical snapshot), the history index being viewed, and the
active selection. -/
structure ViewerState where
  memory : RecallFile
  activeContent : String
  historyIndex : Nat
  selection : Option SelectionState := none
deriving DecidableEq, Repr

/-- Updated memory record produced by a successful handleAgentAction
(src/unnamed/part_000 lines 167 to 186): one history entry is appended and
content, type, thumbnail and updatedAt are refreshed. -/
def viewerEditRecord (m : RecallFile) (newContent : String)
    (newType : RecallType) (description agentPrompt histId : String)
    (now : Nat) : RecallFile :=
  let d : SemanticDiff :=
    { id := histId
    , timestamp := now
    , description := strOr description ("Edited: \"" ++ agentPrompt ++ "\"")
    , previewImage := if newType = .IMAGE then some newContent else none
    , content := some newContent
    , author := "gemini" }
  { m with
    type := newType
  , content := newContent
  , thumbnail := if newType = .IMAGE then newContent else m.thumbnail
  , updatedAt := now
  , history := m.history ++ [d] }

/-- Updated memory record produced by handleRestoreVersion
(src/unnamed/part_000 lines 197 to 218 and MemoryViewer.tsx lines 125 to
146): the currently displayed content is written back as canonical and a
restoration entry is appended.  The locale time formatting of the restored
entry timestamp is an external browser capability passed as timeStr; the
history lookup uses an optional access with a zero default because the
restore control is only rendered for a valid viewed index. -/
def viewerRestoreRecord (m : RecallFile) (activeContent : String)
    (historyIndex : Nat) (histId : String) (now : Nat)
    (timeStr : Nat → String) : RecallFile :=
  let ts := ((m.history.get? historyIndex).map (fun d => d.timestamp)).getD 0
  let d : SemanticDiff :=
    { id := histId
    , timestamp := now
    , description := "Restored version from " ++ timeStr ts
    , content := some activeContent
    , author := "user" }
  { m with
    content := activeContent
  , thumbnail := if m.type = .IMAGE then activeContent else m.thumbnail
  , updatedAt := now
  , history := m.history ++ [d] }

/-- Embedding of handleHistoryClick (src/unnamed/part_000 lines 220 to 231
and MemoryViewer.tsx lines 148 to 159).  An out-of-range index cannot be
produced by the rendered history list and is modelled as leaving the state
unchanged. -/
def handleHistoryClick (st : ViewerState) (idx : Nat) : ViewerState :=
  match st.memory.history.get? idx with
  | none => st
  | some item =>
    if optTruthy item.content then
      { st with
        activeContent := item.content.getD ""
      , historyIndex := idx
      , selection := none }
    else if idx = 0 ∧ optTruthy item.content = false ∧ st.memory.history.length = 1 then
      { st with
        activeContent := st.memory.content
      , historyIndex := idx
      , selection := none }
    else st

/-- Content-mutating viewer operations: an AI or conversion edit, or a
restore of the currently viewed snapshot. -/
inductive ViewerOp
  | edit (newContent : String) (newType : RecallType)
      (description agentPrompt histId : String) (now : Nat)
  | restore (histId : String) (now : Nat)

/-- One viewer operation followed by the state resynchronization effect that
runs after onUpdate replaces the memory (activeContent back to canonical,
index to the last entry, selection cleared). -/
def applyViewerOp (timeStr : Nat → String) (st : ViewerState) :
    ViewerOp → ViewerState
  | .edit newContent newType description agentPrompt histId now =>
    let m2 := viewerEditRecord st.memory newContent newType description agentPrompt histId now
    { memory := m2
    , activeContent := m2.content
    , historyIndex := m2.history.length - 1
    , selection := none }
  | .restore histId now =>
    let m2 := viewerRestoreRecord st.memory st.activeContent st.historyIndex histId now timeStr
    { memory := m2
    , activeContent := m2.content
    , historyIndex := m2.history.length - 1
    , selection := none }

/-- Folded application of a sequence of viewer operations. -/
def applyViewerOps (timeStr : Nat → String) (st : ViewerState)
    (ops : List ViewerOp) : ViewerState :=
  ops.foldl (applyViewerOp timeStr) st

/-! ## Spatial canvas (src/unnamed/part_002) -/

/-- Tag-similarity edge between two memories. -/
structure Connection where
  fromId : String
  toId : String
  strength : Nat
deriving DecidableEq, Repr

/-- Shared-tag list of an ordered pair, as computed by
m1.metadata.tags.filter(t => m2.metadata.tags.includes(t)); duplicates in
the first tag list are counted. -/
def sharedTags (m1 m2 : RecallFile) : List String :=
  m1.metadata.tags.filter (fun t => m2.metadata.tags.contains t)

/-- Connections contributed by one memory against the memories after it in
the list (the inner loop over j of the connections computation). -/
def connsFrom (m1 : RecallFile) (rest : List RecallFile) : List Connection :=
  rest.filterMap (fun m2 =>
    if 0 < (sharedTags m1 m2).length then
      some ⟨m1.id, m2.id, min (sharedTags m1 m2).length 3⟩
    else none)

/-- Embedding of the connections useMemo (src/unnamed/part_002 lines 153 to
166): for every index pair i < j a connection is emitted when the pair
shares at least one tag, with strength min(common.length, 3). -/
def connections : List RecallFile → List Connection
  | [] => []
  | m :: rest => connsFrom m rest ++ connections rest

/-- Number of distinct tags shared by a pair.  Modelled from the spec: the
specification phrases the connection strength as min(k, 3) where k is the
number of tags the pair shares. -/
def sharedTagCount (m1 m2 : RecallFile) : Nat :=
  ((sharedTags m1 m2).dedup).length

/-- Matching test for a connection against an unordered id pair. -/
def matchesPair (a b : RecallFile) (c : Connection) : Bool :=
  (c.fromId == a.id && c.toId == b.id) || (c.fromId == b.id && c.toId == a.id)

/-- Viewport zoom events: a wheel event with its vertical delta, or one of
the two discrete zoom buttons. -/
inductive ZoomEvent
  | wheel (deltaY : ℚ)
  | zoomInButton
  | zoomOutButton

/-- One zoom step of the canvas viewport scale: handleWheel
(src/unnamed/part_002 lines 84 to 90) clamps via min(max(0.2, scale -
deltaY * 0.001), 4); the buttons (lines 278 to 295) step by 0.2 with the
same bounds. -/
def applyZoom (scale : ℚ) : ZoomEvent → ℚ
  | .wheel deltaY => min (max (1/5) (scale - deltaY * (1/1000))) 4
  | .zoomInButton => min (scale + 1/5) 4
  | .zoomOutButton => max (scale - 1/5) (1/5)

/-- Viewport scale after a sequence of zoom events, from the initial scale
of 1. -/
def runZoom (events : List ZoomEvent) : ℚ :=
  events.foldl applyZoom 1

/-! ## Theorems -/

/-- C1: for every input, whenever the AI call of ingestRecall throws or its
response fails to parse as JSON, the returned partial memory has the filename
as title, type DOCUMENT, the single tag file, and mood neutral; ingestRecall
is a total function, so no exception reaches the caller. -/
theorem ingestRecall_failure_fallback (data mimeType filename : String)
    (ai : IngestAiOutcome) (h : ingestAiFailed ai = true) :
    (ingestRecall data mimeType filename ai).title = filename
    ∧ (ingestRecall data mimeType filename ai).type = RecallType.DOCUMENT
    ∧ (ingestRecall data mimeType filename ai).metadata.tags = ["file"]
    ∧ (ingestRecall data mimeType filename ai).metadata.mood = "neutral" := by
  cases ai with
  | threw => exact ⟨rfl, rfl, rfl, rfl⟩
  | noText => exact ⟨rfl, rfl, rfl, rfl⟩
  | badJson raw => exact ⟨rfl, rfl, rfl, rfl⟩
  | parsed a => simp [ingestAiFailed] at h

/-- Witness for C1 at a concrete throwing outcome. -/
theorem ingestRecall_failure_fallback_witness :
    ingestAiFailed IngestAiOutcome.threw = true
    ∧ ((ingestRecall "raw data" "text/plain" "notes.txt" IngestAiOutcome.threw).title
        = "notes.txt"
      ∧ (ingestRecall "raw data" "text/plain" "notes.txt" IngestAiOutcome.threw).type
        = RecallType.DOCUMENT
      ∧ (ingestRecall "raw data" "text/plain" "notes.txt" IngestAiOutcome.threw).metadata.tags
        = ["file"]
      ∧ (ingestRecall "raw data" "text/plain" "notes.txt" IngestAiOutcome.threw).metadata.mood
        = "neutral") :=
  ⟨rfl, ingestRecall_failure_fallback "raw data" "text/plain" "notes.txt"
    IngestAiOutcome.threw rfl⟩

/-- C3 counterexample: when the remote call of editSpecificSelection throws,
the function logs and re-throws instead of returning the original selection,
so at this concrete input the result is the propagated error and not the
selection CDE that the claim predicts. -/
theorem editSpecificSelection_error_propagates :
    editSpecificSelection "ABCDEFGH" "CDE" "shorten this" AiTextOutcome.threw
      = Except.error ()
    ∧ editSpecificSelection "ABCDEFGH" "CDE" "shorten this" AiTextOutcome.threw
      ≠ Except.ok "CDE" := by
  refine ⟨rfl, ?_⟩
  intro h
  simp [editSpecificSelection] at h

/-- C3 as amended: editSpecificSelection returns the trimmed reply when the
reply trims to a nonempty string, returns the original selection unchanged
when the reply is missing or trims to the empty string, and on a thrown
error it re-throws to the caller instead of falling back. -/
theorem editSpecificSelection_contract
    (fullContext selection instruction : String) :
    (∀ s, jsTrim s ≠ "" →
      editSpecificSelection fullContext selection instruction
        (AiTextOutcome.ok (some s)) = Except.ok (jsTrim s))
    ∧ (∀ s, jsTrim s = "" →
      editSpecificSelection fullContext selection instruction
        (AiTextOutcome.ok (some s)) = Except.ok selection)
    ∧ editSpecificSelection fullContext selection instruction
        (AiTextOutcome.ok none) = Except.ok selection
    ∧ editSpecificSelection fullContext selection instruction
        AiTextOutcome.threw = Except.error () := by
  refine ⟨?_, ?_, rfl, rfl⟩
  · intro s h
    simp [editSpecificSelection, strOr, h]
  · intro s h
    simp [editSpecificSelection, strOr, h]

/-- Witness for C3 as amended, at a reply that trims to a nonempty string. -/
theorem editSpecificSelection_contract_witness :
    jsTrim "  new words  " ≠ ""
    ∧ editSpecificSelection "ABCDEFGH" "CDE" "rewrite"
        (AiTextOutcome.ok (some "  new words  ")) = Except.ok (jsTrim "  new words  ") :=
  ⟨by decide, (editSpecificSelection_contract "ABCDEFGH" "CDE" "rewrite").1
    "  new words  " (by decide)⟩

/-- C6: the agent dispatch honors exactly the first function call found in
the response parts: updateMemoryContent yields an update result, createMemory
a create result, organizeCanvas a move result; an unrecognized tool or no
tool call yields a chat result carrying the response text or the default
no-action message; a thrown error yields a chat result with the fixed
failure message, and the result depends on the parts only through the first
function call, so later tool calls are never honored. -/
theorem runAgenticCommand_dispatch (command : String)
    (memories : List RecallFile) :
    runAgenticCommand command memories AgentAiOutcome.threw
      = AgentResponse.chat "Agent failed to connect to neural core."
    ∧ (∀ parts text tc, firstToolCall parts = some tc →
        tc.name = "updateMemoryContent" →
        runAgenticCommand command memories (AgentAiOutcome.ok parts text)
          = AgentResponse.update tc.args.id tc.args.newContent tc.args.reasoning)
    ∧ (∀ parts text tc, firstToolCall parts = some tc →
        tc.name = "createMemory" →
        runAgenticCommand command memories (AgentAiOutcome.ok parts text)
          = AgentResponse.create tc.args.title tc.args.type tc.args.content
              tc.args.reasoning (tc.args.sourceIds.getD []) (tc.args.tags.getD []))
    ∧ (∀ parts text tc, firstToolCall parts = some tc →
        tc.name = "organizeCanvas" →
        runAgenticCommand command memories (AgentAiOutcome.ok parts text)
          = AgentResponse.move tc.args.layout tc.args.reasoning)
    ∧ (∀ parts text tc, firstToolCall parts = some tc →
        tc.name ≠ "updateMemoryContent" → tc.name ≠ "createMemory" →
        tc.name ≠ "organizeCanvas" →
        runAgenticCommand command memories (AgentAiOutcome.ok parts text)
          = AgentResponse.chat
              (strOrOpt text "I\x27ve analyzed the data but no action was required."))
    ∧ (∀ parts text, firstToolCall parts = none →
        runAgenticCommand command memories (AgentAiOutcome.ok parts text)
          = AgentResponse.chat
              (strOrOpt text "I\x27ve analyzed the data but no action was required."))
    ∧ (∀ parts parts2 text, firstToolCall parts = firstToolCall parts2 →
        runAgenticCommand command memories (AgentAiOutcome.ok parts text)
          = runAgenticCommand command memories (AgentAiOutcome.ok parts2 text)) := by
  refine ⟨rfl, ?_, ?_, ?_, ?_, ?_, ?_⟩
  · intro parts text tc h hn
    simp [runAgenticCommand, h, hn]
  · intro parts text tc h hn
    simp [runAgenticCommand, h, hn]
  · intro parts text tc h hn
    simp [runAgenticCommand, h, hn]
  · intro parts text tc h h1 h2 h3
    simp [runAgenticCommand, h, h1, h2, h3]
  · intro parts text h
    simp [runAgenticCommand, h]
  · intro parts parts2 text h
    simp [runAgenticCommand, h]

/-- Witness for C6: a response whose first part carries an
updateMemoryContent call dispatches to an update result. -/
theorem runAgenticCommand_dispatch_witness :
    firstToolCall [⟨some ⟨"updateMemoryContent", { id := "m1" : ToolArgs }⟩⟩]
      = some ⟨"updateMemoryContent", { id := "m1" : ToolArgs }⟩
    ∧ runAgenticCommand "fix m1" []
        (AgentAiOutcome.ok [⟨some ⟨"updateMemoryContent", { id := "m1" : ToolArgs }⟩⟩]
          (some "ignored"))
      = AgentResponse.update "m1" "" "" := by
  refine ⟨rfl, ?_⟩
  have h := (runAgenticCommand_dispatch "fix m1" []).2.1
    [⟨some ⟨"updateMemoryContent", { id := "m1" : ToolArgs }⟩⟩] (some "ignored")
    ⟨"updateMemoryContent", { id := "m1" : ToolArgs }⟩ rfl rfl
  simpa using h

/-- One zoom step keeps the viewport scale inside the clamped interval. -/
lemma applyZoom_bounds (s : ℚ) (e : ZoomEvent) (h1 : 1/5 ≤ s) (h2 : s ≤ 4) :
    1/5 ≤ applyZoom s e ∧ applyZoom s e ≤ 4 := by
  cases e with
  | wheel deltaY =>
    constructor
    · exact le_min (le_max_left _ _) (by norm_num)
    · exact min_le_right _ _
  | zoomInButton =>
    constructor
    · exact le_min (by linarith) (by norm_num)
    · exact min_le_right _ _
  | zoomOutButton =>
    constructor
    · exact le_max_right _ _
    · exact max_le (by linarith) (by norm_num)

/-- C9: for every sequence of wheel zoom events and discrete zoom-button
presses, with wheel deltas of any magnitude, the viewport scale stays inside
the closed interval from 0.2 to 4. -/
theorem zoom_scale_clamped (events : List ZoomEvent) :
    1/5 ≤ runZoom events ∧ runZoom events ≤ 4 := by
  suffices h : ∀ s : ℚ, 1/5 ≤ s → s ≤ 4 →
      1/5 ≤ events.foldl applyZoom s ∧ events.foldl applyZoom s ≤ 4 by
    exact h 1 (by norm_num) (by norm_num)
  induction events with
  | nil =>
    intro s h1 h2
    exact ⟨h1, h2⟩
  | cons e rest ih =>
    intro s h1 h2
    exact ih (applyZoom s e) (applyZoom_bounds s e h1 h2).1 (applyZoom_bounds s e h1 h2).2

/-- C10: clicking a history entry with absent (or empty, hence falsy)
content is a complete no-op whenever the history has more than one entry,
and more generally whenever the entry is not the sole entry at index zero;
the canonical-content fallback fires exactly in that remaining case. -/
theorem historyClick_absent_content_noop :
    (∀ (st : ViewerState) (idx : Nat) (e : SemanticDiff),
      st.memory.history.get? idx = some e → optTruthy e.content = false →
      1 < st.memory.history.length → handleHistoryClick st idx = st)
    ∧ (∀ (st : ViewerState) (idx : Nat) (e : SemanticDiff),
      st.memory.history.get? idx = some e → optTruthy e.content = false →
      ¬ (idx = 0 ∧ st.memory.history.length = 1) → handleHistoryClick st idx = st)
    ∧ (∀ (st : ViewerState) (e : SemanticDiff),
      st.memory.history.get? 0 = some e → optTruthy e.content = false →
      st.memory.history.length = 1 →
      handleHistoryClick st 0
        = { st with
            activeContent := st.memory.content
          , historyIndex := 0
          , selection := none }) := by
  have general : ∀ (st : ViewerState) (idx : Nat) (e : SemanticDiff),
      st.memory.history.get? idx = some e → optTruthy e.content = false →
      ¬ (idx = 0 ∧ st.memory.history.length = 1) → handleHistoryClick st idx = st := by
    intro st idx e hget hfalsy hnot
    unfold handleHistoryClick
    rw [hget]
    simp only [hfalsy]
    rw [if_neg (by simp), if_neg (by tauto)]
  refine ⟨?_, general, ?_⟩
  · intro st idx e hget hfalsy hlen
    exact general st idx e hget hfalsy (by omega)
  · intro st e hget hfalsy hlen
    unfold handleHistoryClick
    rw [hget]
    simp only [hfalsy]
    rw [if_neg (by simp), if_pos (by simp [hlen])]

/-- Concrete viewer state used by the C10 witness: a two-entry history
whose first entry has no stored content. -/
def clickDemoState : ViewerState :=
  { memory :=
      { id := "m1", title := "t", description := "", type := RecallType.TEXT
      , content := "current", thumbnail := "", createdAt := 0, updatedAt := 2
      , metadata := { tags := [], mood := "neutral" }
      , history :=
        [⟨"h1", 1, "Original Import", none, none, "user"⟩,
         ⟨"h2", 2, "Edited", some "current", none, "gemini"⟩] }
  , activeContent := "current"
  , historyIndex := 1 }

/-- Witness for C10: clicking the content-less first entry of the two-entry
history changes nothing. -/
theorem historyClick_absent_content_noop_witness :
    clickDemoState.memory.history.get? 0
      = some ⟨"h1", 1, "Original Import", none, none, "user"⟩
    ∧ handleHistoryClick clickDemoState 0 = clickDemoState :=
  ⟨rfl, historyClick_absent_content_noop.1 clickDemoState 0
    ⟨"h1", 1, "Original Import", none, none, "user"⟩ rfl rfl (by decide)⟩

/-- Jitter stays within 60 units for a unit-interval random sample. -/
lemma jitter_abs_le (r : ℚ) (h0 : 0 ≤ r) (h1 : r < 1) : |jitter r| ≤ 60 := by
  rw [abs_le, jitter]
  constructor <;> linarith

/-- C5: the smart position lands within 60 units per axis of the mean of the
same-archetype peers when such peers exist, and within 60 units per axis of
the fixed archetype anchor otherwise. -/
theorem getSmartPosition_within_jitter (rx ry : ℚ) (t : RecallType)
    (ms : List RecallFile) (hx0 : 0 ≤ rx) (hx1 : rx < 1)
    (hy0 : 0 ≤ ry) (hy1 : ry < 1) :
    (0 < (ms.filter (fun m => m.type = t)).length →
      |(getSmartPosition rx ry t ms).1
        - peerSumX (ms.filter (fun m => m.type = t))
            / (ms.filter (fun m => m.type = t)).length| ≤ 60
      ∧ |(getSmartPosition rx ry t ms).2
        - peerSumY (ms.filter (fun m => m.type = t))
            / (ms.filter (fun m => m.type = t)).length| ≤ 60)
    ∧ ((ms.filter (fun m => m.type = t)).length = 0 →
      |(getSmartPosition rx ry t ms).1 - (anchorFor t).1| ≤ 60
      ∧ |(getSmartPosition rx ry t ms).2 - (anchorFor t).2| ≤ 60) := by
  constructor
  · intro hpos
    unfold getSmartPosition
    rw [if_pos hpos]
    constructor
    · simpa using jitter_abs_le rx hx0 hx1
    · simpa using jitter_abs_le ry hy0 hy1
  · intro hzero
    unfold getSmartPosition
    rw [if_neg (by omega)]
    cases t <;> simp [anchorFor] <;>
      constructor <;> simpa using
        (fun h0 h1 => jitter_abs_le _ h0 h1) (by assumption) (by assumption)

/-- Witness for C5: with no memories at all, a TEXT ingest with median
random samples lands within 60 units of the workbench anchor. -/
theorem getSmartPosition_within_jitter_witness :
    (0 ≤ (1/2 : ℚ) ∧ (1/2 : ℚ) < 1)
    ∧ (|(getSmartPosition (1/2) (1/2) RecallType.TEXT []).1
          - (anchorFor RecallType.TEXT).1| ≤ 60
      ∧ |(getSmartPosition (1/2) (1/2) RecallType.TEXT []).2
          - (anchorFor RecallType.TEXT).2| ≤ 60) :=
  ⟨⟨by norm_num, by norm_num⟩,
    (getSmartPosition_within_jitter (1/2) (1/2) RecallType.TEXT []
      (by norm_num) (by norm_num) (by norm_num) (by norm_num)).2 rfl⟩

/-- Every single viewer operation rewrites the memory by appending exactly
one history entry. -/
lemma applyViewerOp_history_step (timeStr : Nat → String) (st : ViewerState)
    (op : ViewerOp) :
    ∃ d, (applyViewerOp timeStr st op).memory.history
      = st.memory.history ++ [d] := by
  cases op with
  | edit newContent newType description agentPrompt histId now =>
    exact ⟨_, rfl⟩
  | restore histId now =>
    exact ⟨_, rfl⟩

/-- C2: any sequence of viewer edit and restore operations only ever appends
to the history, one entry per operation, leaving every previously written
entry untouched; and clicking a history entry with nonempty stored content
and then restoring writes exactly that content back as canonical while
appending one user-authored restoration entry derived from the clicked
entry's timestamp. -/
theorem viewer_history_append_only (timeStr : Nat → String) :
    (∀ (st : ViewerState) (ops : List ViewerOp),
      ∃ ext, (applyViewerOps timeStr st ops).memory.history
          = st.memory.history ++ ext
        ∧ ext.length = ops.length)
    ∧ (∀ (st : ViewerState) (i : Nat) (e : SemanticDiff) (c histId : String)
        (now : Nat),
      st.memory.history.get? i = some e → e.content = some c → c ≠ "" →
      ((applyViewerOp timeStr (handleHistoryClick st i)
          (ViewerOp.restore histId now)).memory.content = c
        ∧ (applyViewerOp timeStr (handleHistoryClick st i)
            (ViewerOp.restore histId now)).memory.history
          = st.memory.history
            ++ [⟨histId, now, "Restored version from " ++ timeStr e.timestamp,
                  some c, none, "user"⟩])) := by
  constructor
  · intro st ops
    induction ops generalizing st with
    | nil => exact ⟨[], by simp [applyViewerOps], rfl⟩
    | cons op rest ih =>
      obtain ⟨ext, hh, hl⟩ := ih (applyViewerOp timeStr st op)
      obtain ⟨d, hd⟩ := applyViewerOp_history_step timeStr st op
      refine ⟨d :: ext, ?_, ?_⟩
      · have hsteps : applyViewerOps timeStr st (op :: rest)
            = applyViewerOps timeStr (applyViewerOp timeStr st op) rest := rfl
        rw [hsteps, hh, hd]
        simp
      · simp [hl]
  · intro st i e c histId now hget hc hne
    have htruthy : optTruthy e.content = true := by
      rw [hc]
      simp [optTruthy, hne]
    have hclick : handleHistoryClick st i
        = { st with activeContent := c, historyIndex := i, selection := none } := by
      unfold handleHistoryClick
      rw [hget]
      dsimp only
      rw [if_pos htruthy, hc]
      rfl
    rw [hclick]
    constructor
    · rfl
    · show st.memory.history
        ++ [⟨histId, now,
              "Restored version from "
                ++ timeStr (((st.memory.history.get? i).map
                      (fun d => d.timestamp)).getD 0),
              some c, none, "user"⟩]
        = _
      rw [hget]
      rfl

/-- Concrete viewer state used by the C2 witness: the first history entry
stores the content hello. -/
def restoreDemoState : ViewerState :=
  { memory :=
      { id := "m1", title := "t", description := "", type := RecallType.TEXT
      , content := "now", thumbnail := "", createdAt := 0, updatedAt := 2
      , metadata := { tags := [], mood := "neutral" }
      , history :=
        [⟨"h1", 1, "Original Import", some "hello", none, "user"⟩,
         ⟨"h2", 2, "Edited", some "now", none, "gemini"⟩] }
  , activeContent := "now"
  , historyIndex := 1 }

/-- Witness for C2: clicking the first entry and restoring makes hello the
canonical content again and appends exactly the restoration entry. -/
theorem viewer_history_append_only_witness :
    (restoreDemoState.memory.history.get? 0
        = some ⟨"h1", 1, "Original Import", some "hello", none, "user"⟩
      ∧ ("hello" : String) ≠ "")
    ∧ ((applyViewerOp (fun n => toString n) (handleHistoryClick restoreDemoState 0)
          (ViewerOp.restore "h3" 5)).memory.content = "hello"
      ∧ (applyViewerOp (fun n => toString n) (handleHistoryClick restoreDemoState 0)
          (ViewerOp.restore "h3" 5)).memory.history
        = restoreDemoState.memory.history
          ++ [⟨"h3", 5, "Restored version from " ++ toString (1 : Nat),
                some "hello", none, "user"⟩]) :=
  ⟨⟨rfl, by decide⟩,
    (viewer_history_append_only (fun n => toString n)).2 restoreDemoState 0
      ⟨"h1", 1, "Original Import", some "hello", none, "user"⟩ "hello" "h3" 5
      rfl rfl (by decide)⟩

/-- Image memory used by the C4 counterexample: thumbnail and content agree
before the agent-driven update. -/
def imageDemoMemory : RecallFile :=
  { id := "m1", title := "photo", description := "", type := RecallType.IMAGE
  , content := "imgA", thumbnail := "imgA", createdAt := 0, updatedAt := 1
  , metadata := { tags := [], mood := "neutral" }
  , history := [⟨"h1", 1, "Original Import", some "imgA", none, "user"⟩] }

/-- C4 counterexample: the agent update branch of handleCommand rewrites the
content of the matching memory but never touches its thumbnail, so after an
agent-driven update of an image memory the thumbnail no longer equals the
content. -/
theorem agentUpdate_breaks_thumbnail_sync :
    (shellAgentUpdate "m1" "imgB" "recolored" "h2" 5 imageDemoMemory).type
      = RecallType.IMAGE
    ∧ (shellAgentUpdate "m1" "imgB" "recolored" "h2" 5 imageDemoMemory).content
      = "imgB"
    ∧ (shellAgentUpdate "m1" "imgB" "recolored" "h2" 5 imageDemoMemory).thumbnail
      = "imgA"
    ∧ (shellAgentUpdate "m1" "imgB" "recolored" "h2" 5 imageDemoMemory).thumbnail
      ≠ (shellAgentUpdate "m1" "imgB" "recolored" "h2" 5 imageDemoMemory).content := by
  refine ⟨rfl, rfl, rfl, ?_⟩
  intro h
  simp [shellAgentUpdate, imageDemoMemory] at h

/-- C4 as amended: ingestion, viewer edits, viewer restores and agent-driven
creation all keep the thumbnail equal to the content whenever the resulting
type is IMAGE, but the agent-driven update path leaves the thumbnail
unchanged, so it alone can break the equality for image memories. -/
theorem thumbnail_sync_contract :
    (∀ (m : RecallFile) (newContent : String) (newType : RecallType)
        (description agentPrompt histId : String) (now : Nat),
      (viewerEditRecord m newContent newType description agentPrompt histId now).type
          = RecallType.IMAGE →
      (viewerEditRecord m newContent newType description agentPrompt histId now).thumbnail
        = (viewerEditRecord m newContent newType description agentPrompt histId now).content)
    ∧ (∀ (m : RecallFile) (activeContent : String) (historyIndex : Nat)
        (histId : String) (now : Nat) (timeStr : Nat → String),
      (viewerRestoreRecord m activeContent historyIndex histId now timeStr).type
          = RecallType.IMAGE →
      (viewerRestoreRecord m activeContent historyIndex histId now timeStr).thumbnail
        = (viewerRestoreRecord m activeContent historyIndex histId now timeStr).content)
    ∧ (∀ (analysisTitle analysisDescription : Option String)
        (analysisType : Option RecallType) (metadata : RecallMetadata)
        (content fileName : String) (isDocx isExcel : Bool) (pos : ℚ × ℚ)
        (newId histId : String) (now : Nat),
      (buildIngestMemory analysisTitle analysisDescription analysisType metadata
          content fileName isDocx isExcel pos newId histId now).type
          = RecallType.IMAGE →
      (buildIngestMemory analysisTitle analysisDescription analysisType metadata
          content fileName isDocx isExcel pos newId histId now).thumbnail
        = (buildIngestMemory analysisTitle analysisDescription analysisType metadata
            content fileName isDocx isExcel pos newId histId now).content)
    ∧ (∀ (resTitle resContent resReasoning : String) (resType : Option RecallType)
        (resTags : Option (List String)) (pos : ℚ × ℚ) (newId histId : String)
        (now : Nat),
      (shellAgentCreate resTitle resContent resReasoning resType resTags pos
          newId histId now).type = RecallType.IMAGE →
      (shellAgentCreate resTitle resContent resReasoning resType resTags pos
          newId histId now).thumbnail
        = (shellAgentCreate resTitle resContent resReasoning resType resTags pos
            newId histId now).content)
    ∧ (∀ (resId resContent resReasoning histId : String) (now : Nat)
        (m : RecallFile),
      (shellAgentUpdate resId resContent resReasoning histId now m).thumbnail
        = m.thumbnail) := by
  refine ⟨?_, ?_, ?_, ?_, ?_⟩
  · intro m newContent newType description agentPrompt histId now ht
    have : newType = RecallType.IMAGE := ht
    simp [viewerEditRecord, this]
  · intro m activeContent historyIndex histId now timeStr ht
    have : m.type = RecallType.IMAGE := ht
    simp [viewerRestoreRecord, this]
  · intro analysisTitle analysisDescription analysisType metadata content
      fileName isDocx isExcel pos newId histId now ht
    have ht2 : (if isDocx || isExcel then RecallType.DOCUMENT
        else analysisType.getD RecallType.DOCUMENT) = RecallType.IMAGE := ht
    have himg : analysisType = some RecallType.IMAGE := by
      by_cases hb : (isDocx || isExcel) = true
      · rw [if_pos hb] at ht2
        exact absurd ht2 (by simp)
      · rw [if_neg hb] at ht2
        cases analysisType with
        | none => exact absurd ht2 (by simp)
        | some v => simpa using ht2
    simp [buildIngestMemory, himg]
  · intro resTitle resContent resReasoning resType resTags pos newId histId now ht
    have ht2 : resType.getD RecallType.TEXT = RecallType.IMAGE := ht
    simp [shellAgentCreate, ht2]
  · intro resId resContent resReasoning histId now m
    unfold shellAgentUpdate
    by_cases h : m.id = resId
    · rw [if_pos h]
    · rw [if_neg h]

/-- Witness for C4 as amended: restoring image content on an image memory
keeps thumbnail and content equal. -/
theorem thumbnail_sync_contract_witness :
    (viewerRestoreRecord imageDemoMemory "imgA" 0 "h9" 9 (fun n => toString n)).type
      = RecallType.IMAGE
    ∧ (viewerRestoreRecord imageDemoMemory "imgA" 0 "h9" 9 (fun n => toString n)).thumbnail
      = (viewerRestoreRecord imageDemoMemory "imgA" 0 "h9" 9 (fun n => toString n)).content :=
  ⟨rfl, thumbnail_sync_contract.2.1 imageDemoMemory "imgA" 0 "h9" 9
    (fun n => toString n) rfl⟩

/-- Text content of 2001 characters used by the C7 counterexample. -/
def bigText : String := String.mk (List.replicate 2001 'a')

/-- C7 counterexample: a 2001-character plain-text content is submitted to
the AI service by ingestRecall in full, not truncated to 2000 characters as
the claim predicts; the submitted part differs from the truncated one. -/
theorem ingest_text_not_truncated :
    ingestSubmittedTextPart bigText "text/plain" "notes.txt" none
      = some ("FILE CONTENT:\n" ++ bigText)
    ∧ bigText.length = 2001
    ∧ ingestSubmittedTextPart bigText "text/plain" "notes.txt" none
      ≠ some ("FILE CONTENT:\n" ++ jsSubstringTo bigText 2000) := by
  have h1 : bigText.length = 2001 := by
    show (List.replicate 2001 'a').length = 2001
    exact List.length_replicate 2001 'a'
  refine ⟨rfl, h1, ?_⟩
  intro h
  rw [show ingestSubmittedTextPart bigText "text/plain" "notes.txt" none
      = some ("FILE CONTENT:\n" ++ bigText) from rfl] at h
  have heq := Option.some.inj h
  have hlen := congrArg String.length heq
  rw [String.length_append, String.length_append] at hlen
  have h2 : (jsSubstringTo bigText 2000).length = 2000 := by
    show (bigText.toList.take 2000).length = 2000
    rw [List.length_take]
    have h3 : bigText.toList.length = 2001 := by
      show (List.replicate 2001 'a').length = 2001
      exact List.length_replicate 2001 'a'
    rw [h3]
    exact min_eq_left (by norm_num)
  rw [h1, h2] at hlen
  omega

/-- Folding the per-sheet summaries over an accumulator concatenates the
accumulator with the chained sheet blocks. -/
lemma foldl_sheetBlocks (sheets : List SheetData) (acc : String) :
    sheets.foldl
      (fun summary sheet => summary ++ "\n--- SHEET: " ++ sheet.name ++ " ---\n"
        ++ jsSubstringTo (sheetToText sheet.html) 3000) acc
    = acc ++ sheetBlocks sheets := by
  induction sheets generalizing acc with
  | nil => simp [sheetBlocks]
  | cons sheet rest ih =>
    simp only [List.foldl_cons, sheetBlocks]
    rw [ih]
    simp [String.append_assoc]

/-- C7 as amended: spreadsheet content that parses is flattened to the
header plus one block per sheet, each block carrying the tag-stripped,
whitespace-collapsed sheet text truncated to at most 3000 characters (the
concrete table shows the row and cell separators); content routed through
the flattening helper which is not a parsable spreadsheet payload is
truncated to 2000 characters there; but plain text submitted to ingestion
bypasses the helper and is sent in full, untruncated. -/
theorem spreadsheet_flattening_contract :
    (∀ (content : String) (payload : SpreadsheetPayload),
      jsStartsWith content spreadsheetSentinel = true →
      payload.appType = "spreadsheet" →
      simplifySpreadsheetForAI content (some payload)
        = "SPREADSHEET DATA (Multiple Tabs):\n" ++ sheetBlocks payload.sheets)
    ∧ (∀ html : String, (jsSubstringTo (sheetToText html) 3000).length ≤ 3000)
    ∧ sheetToText "<table><tr><td>a</td><td>b</td></tr><tr><td>c</td></tr></table>"
        = "a | b | c |"
    ∧ (∀ (content : String) (parsed : Option SpreadsheetPayload),
      jsStartsWith content spreadsheetSentinel = false →
      simplifySpreadsheetForAI content parsed = jsSubstringTo content 2000)
    ∧ (∀ content : String, jsStartsWith content spreadsheetSentinel = true →
      simplifySpreadsheetForAI content none = jsSubstringTo content 2000)
    ∧ (∀ (s : String) (n : Nat), (jsSubstringTo s n).length ≤ n)
    ∧ (∀ (data mimeType filename : String) (parsed : Option SpreadsheetPayload),
      isSupportedBinary mimeType = false →
      jsStartsWith data spreadsheetSentinel = false →
      isTextLike mimeType filename = true →
      ingestSubmittedTextPart data mimeType filename parsed
        = some ("FILE CONTENT:\n" ++ data)) := by
  refine ⟨?_, ?_, by decide, ?_, ?_, ?_, ?_⟩
  · intro content payload h1 h2
    unfold simplifySpreadsheetForAI
    rw [if_neg (by simp [h1])]
    dsimp only
    rw [if_neg (by simp [h2])]
    exact foldl_sheetBlocks payload.sheets _
  · intro html
    show ((sheetToText html).toList.take 3000).length ≤ 3000
    rw [List.length_take]
    exact min_le_left _ _
  · intro content parsed h
    unfold simplifySpreadsheetForAI
    rw [if_pos (by simp [h])]
  · intro content h
    unfold simplifySpreadsheetForAI
    rw [if_neg (by simp [h])]
  · intro s n
    show (s.toList.take n).length ≤ n
    rw [List.length_take]
    exact min_le_left _ _
  · intro data mimeType filename parsed hb hs ht
    unfold ingestSubmittedTextPart
    rw [if_neg (by simp [hb]), if_neg (by simp [hs]), if_pos (by simp [ht])]

/-- Witness for C7 as amended: a one-sheet payload flattens to the header
plus its sheet block. -/
theorem spreadsheet_flattening_contract_witness :
    jsStartsWith spreadsheetSentinel spreadsheetSentinel = true
    ∧ simplifySpreadsheetForAI spreadsheetSentinel
        (some ⟨"spreadsheet", [⟨"Sheet1", "<tr><td>x</td></tr>"⟩]⟩)
      = "SPREADSHEET DATA (Multiple Tabs):\n"
        ++ sheetBlocks [⟨"Sheet1", "<tr><td>x</td></tr>"⟩] :=
  ⟨by decide, spreadsheet_flattening_contract.1 spreadsheetSentinel
    ⟨"spreadsheet", [⟨"Sheet1", "<tr><td>x</td></tr>"⟩]⟩ (by decide) rfl⟩

/-- First memory of the C8 counterexample: a duplicated tag. -/
def dupTagMemory1 : RecallFile :=
  { id := "1", title := "n1", description := "", type := RecallType.TEXT
  , content := "", thumbnail := "", createdAt := 0, updatedAt := 0
  , metadata := { tags := ["a", "a"], mood := "neutral" }
  , history := [] }

/-- Second memory of the C8 counterexample. -/
def dupTagMemory2 : RecallFile :=
  { id := "2", title := "n2", description := "", type := RecallType.TEXT
  , content := "", thumbnail := "", createdAt := 0, updatedAt := 0
  , metadata := { tags := ["a"], mood := "neutral" }
  , history := [] }

/-- C8 counterexample: the connection strength counts duplicated tags of the
first memory, so a pair sharing exactly one distinct tag gets strength 2
instead of the min(k, 3) = 1 the claim predicts. -/
theorem connection_strength_counts_duplicates :
    connections [dupTagMemory1, dupTagMemory2] = [⟨"1", "2", 2⟩]
    ∧ sharedTagCount dupTagMemory1 dupTagMemory2 = 1
    ∧ (connections [dupTagMemory1, dupTagMemory2]).map (fun c => c.strength)
      ≠ [min (sharedTagCount dupTagMemory1 dupTagMemory2) 3] := by
  refine ⟨by decide, by decide, by decide⟩

/-- Membership in the per-head connection list. -/
lemma mem_connsFrom {m1 : RecallFile} {rest : List RecallFile} {c : Connection} :
    c ∈ connsFrom m1 rest
      ↔ ∃ m2 ∈ rest, 0 < (sharedTags m1 m2).length
          ∧ c = ⟨m1.id, m2.id, min (sharedTags m1 m2).length 3⟩ := by
  unfold connsFrom
  rw [List.mem_filterMap]
  constructor
  · rintro ⟨m2, hm2, hf⟩
    by_cases hs : 0 < (sharedTags m1 m2).length
    · rw [if_pos hs] at hf
      exact ⟨m2, hm2, hs, (Option.some.inj hf).symm⟩
    · rw [if_neg hs] at hf
      cases hf
  · rintro ⟨m2, hm2, hs, hc⟩
    exact ⟨m2, hm2, by rw [if_pos hs, hc]⟩

/-- Both endpoints of a generated connection are ids of list members. -/
lemma connections_endpoints {ms : List RecallFile} {c : Connection}
    (hc : c ∈ connections ms) :
    c.fromId ∈ ms.map (fun m => m.id) ∧ c.toId ∈ ms.map (fun m => m.id) := by
  induction ms with
  | nil => simp [connections] at hc
  | cons m rest ih =>
    have hconn : connections (m :: rest) = connsFrom m rest ++ connections rest := rfl
    rw [hconn] at hc
    rcases List.mem_append.mp hc with h | h
    · obtain ⟨m2, hm2, hs, hceq⟩ := mem_connsFrom.mp h
      subst hceq
      constructor
      · exact List.mem_map.mpr ⟨m, List.mem_cons_self m rest, rfl⟩
      · exact List.mem_map.mpr ⟨m2, List.mem_cons_of_mem m hm2, rfl⟩
    · rw [List.map_cons]
      exact ⟨List.mem_cons_of_mem _ (ih h).1, List.mem_cons_of_mem _ (ih h).2⟩

/-- In a list with pairwise distinct ids, members are determined by id. -/
lemma eq_of_mem_id {ms : List RecallFile}
    (hids : (ms.map (fun m => m.id)).Nodup) {a b : RecallFile}
    (ha : a ∈ ms) (hb : b ∈ ms) (h : a.id = b.id) : a = b := by
  induction ms with
  | nil => cases ha
  | cons m rest ih =>
    rw [List.map_cons, List.nodup_cons] at hids
    rcases List.mem_cons.mp ha with rfl | ha2
    · rcases List.mem_cons.mp hb with rfl | hb2
      · rfl
      · exact absurd (List.mem_map.mpr ⟨b, hb2, h.symm⟩) hids.1
    · rcases List.mem_cons.mp hb with rfl | hb2
      · exact absurd (List.mem_map.mpr ⟨a, ha2, h⟩) hids.1
      · exact ih hids.2 ha2 hb2

/-- The pair-matching test is symmetric in the pair. -/
lemma matchesPair_comm (a b : RecallFile) (c : Connection) :
    matchesPair a b c = matchesPair b a c := by
  unfold matchesPair
  rw [Bool.or_comm]

/-- A pair shares a tag exactly when some tag lies in both tag lists. -/
lemma sharedTags_pos_iff (a b : RecallFile) :
    0 < (sharedTags a b).length
      ↔ ∃ t, t ∈ a.metadata.tags ∧ t ∈ b.metadata.tags := by
  unfold sharedTags
  rw [List.length_pos_iff_exists_mem]
  constructor
  · rintro ⟨t, ht⟩
    rw [List.mem_filter] at ht
    refine ⟨t, ht.1, ?_⟩
    have h2 := ht.2
    simpa [List.contains, List.elem_eq_mem] using h2
  · rintro ⟨t, h1, h2⟩
    refine ⟨t, List.mem_filter.mpr ⟨h1, ?_⟩⟩
    simpa [List.contains, List.elem_eq_mem] using h2

/-- Sharing at least one tag is symmetric. -/
lemma sharedTags_pos_comm (a b : RecallFile) :
    0 < (sharedTags a b).length ↔ 0 < (sharedTags b a).length := by
  rw [sharedTags_pos_iff, sharedTags_pos_iff]
  constructor
  · rintro ⟨t, h1, h2⟩
    exact ⟨t, h2, h1⟩
  · rintro ⟨t, h1, h2⟩
    exact ⟨t, h2, h1⟩

/-- With duplicate-free tag lists the shared-tag count is symmetric. -/
lemma sharedTags_length_comm {a b : RecallFile} (ha : a.metadata.tags.Nodup)
    (hb : b.metadata.tags.Nodup) :
    (sharedTags a b).length = (sharedTags b a).length := by
  have hna : (sharedTags a b).Nodup := List.Nodup.filter _ ha
  have hnb : (sharedTags b a).Nodup := List.Nodup.filter _ hb
  have hperm : (sharedTags a b).Perm (sharedTags b a) := by
    rw [List.perm_ext_iff_of_nodup hna hnb]
    intro t
    unfold sharedTags
    rw [List.mem_filter, List.mem_filter]
    simp only [List.contains, List.elem_eq_mem, decide_eq_true_eq]
    tauto
  exact hperm.length_eq

/-- With duplicate-free tags, dedup does not change the shared-tag list, so
the code's count equals the number of distinct shared tags. -/
lemma sharedTags_length_eq_count {a b : RecallFile}
    (ha : a.metadata.tags.Nodup) :
    (sharedTags a b).length = sharedTagCount a b := by
  have h : (sharedTags a b).Nodup := List.Nodup.filter _ ha
  unfold sharedTagCount
  rw [List.dedup_eq_self.mpr h]

/-- Counting members of a duplicate-free-id list that satisfy a predicate
and carry one fixed id isolates that single member. -/
lemma countP_id_filter {rest : List RecallFile} {b : RecallFile}
    (hn : (rest.map (fun m => m.id)).Nodup) (hb : b ∈ rest)
    (q : RecallFile → Bool) :
    rest.countP (fun m2 => q m2 && (m2.id == b.id))
      = if q b = true then 1 else 0 := by
  induction rest with
  | nil => cases hb
  | cons r rest2 ih =>
    rw [List.map_cons, List.nodup_cons] at hn
    rcases List.mem_cons.mp hb with rfl | hb2
    · rw [List.countP_cons]
      have hzero : rest2.countP (fun m2 => q m2 && (m2.id == b.id)) = 0 := by
        rw [List.countP_eq_zero]
        intro m2 hm2
        simp only [Bool.and_eq_true, beq_iff_eq, not_and]
        intro _ hid
        exact absurd (List.mem_map.mpr ⟨m2, hm2, hid⟩) hn.1
      rw [hzero]
      simp
    · rw [List.countP_cons]
      have hrid : r.id ≠ b.id := by
        intro h
        exact absurd (List.mem_map.mpr ⟨b, hb2, h.symm⟩) hn.1
      have hfalse : (q r && (r.id == b.id)) = false := by
        simp [hrid]
      rw [ih hn.2 hb2]
      simp [hfalse]

/-- Counting the matching connections contributed by the first element of
the unordered pair against a tail containing the second element: exactly
one when the pair shares a tag. -/
lemma countP_connsFrom_head {a b : RecallFile} {rest : List RecallFile}
    (hn : (rest.map (fun m => m.id)).Nodup) (hb : b ∈ rest)
    (hab : a.id ≠ b.id) :
    (connsFrom a rest).countP (matchesPair a b)
      = if 0 < (sharedTags a b).length then 1 else 0 := by
  unfold connsFrom
  rw [List.countP_filterMap]
  have hcong : ∀ m2 ∈ rest,
      ((Option.map (matchesPair a b)
        (if 0 < (sharedTags a m2).length then
          some ⟨a.id, m2.id, min (sharedTags a m2).length 3⟩
         else none)).getD false) = true
      ↔ ((fun m2 => decide (0 < (sharedTags a m2).length) && (m2.id == b.id)) m2)
          = true := by
    intro m2 _
    by_cases hs : 0 < (sharedTags a m2).length
    · rw [if_pos hs]
      simp [matchesPair, hs, hab]
    · rw [if_neg hs]
      simp [hs]
  rw [List.countP_congr hcong,
    countP_id_filter hn hb (fun m2 => decide (0 < (sharedTags a m2).length))]
  simp

/-- Connections contributed by a head unrelated to the pair never match. -/
lemma countP_connsFrom_other {a b m : RecallFile} {rest : List RecallFile}
    (h1 : m.id ≠ a.id) (h2 : m.id ≠ b.id) :
    (connsFrom m rest).countP (matchesPair a b) = 0 := by
  rw [List.countP_eq_zero]
  intro c hc
  obtain ⟨m2, hm2, hs, hceq⟩ := mem_connsFrom.mp hc
  subst hceq
  simp [matchesPair, h1, h2]

/-- No connection of a list avoiding the first id of the pair can match. -/
lemma countP_connections_zero {a b : RecallFile} {rest : List RecallFile}
    (hna : a.id ∉ rest.map (fun m => m.id)) :
    (connections rest).countP (matchesPair a b) = 0 := by
  rw [List.countP_eq_zero]
  intro c hc
  have hend := connections_endpoints hc
  simp only [matchesPair, Bool.or_eq_true, Bool.and_eq_true, beq_iff_eq, not_or,
    not_and]
  constructor
  · intro hfa _
    exact absurd (hfa ▸ hend.1) hna
  · intro _ hta
    exact absurd (hta ▸ hend.2) hna

/-- Exactly one connection is generated per unordered pair with distinct
ids sharing at least one tag, and none otherwise. -/
lemma connections_countP {ms : List RecallFile}
    (hids : (ms.map (fun m => m.id)).Nodup) {a b : RecallFile}
    (ha : a ∈ ms) (hb : b ∈ ms) (hab : a.id ≠ b.id) :
    (connections ms).countP (matchesPair a b)
      = if 0 < (sharedTags a b).length then 1 else 0 := by
  induction ms with
  | nil => cases ha
  | cons m rest ih =>
    have hnods := hids
    rw [List.map_cons, List.nodup_cons] at hnods
    have hconn : connections (m :: rest) = connsFrom m rest ++ connections rest := rfl
    rw [hconn, List.countP_append]
    rcases List.mem_cons.mp ha with rfl | ha2
    · have hbrest : b ∈ rest := by
        rcases List.mem_cons.mp hb with rfl | h
        · exact absurd rfl hab
        · exact h
      rw [countP_connsFrom_head hnods.2 hbrest hab,
        countP_connections_zero hnods.1]
      omega
    · rcases List.mem_cons.mp hb with rfl | hb2
      · have hcomm : (connsFrom b rest).countP (matchesPair a b)
            = (connsFrom b rest).countP (matchesPair b a) :=
          List.countP_congr (fun c _ => by rw [matchesPair_comm a b c])
        have hzero : (connections rest).countP (matchesPair a b) = 0 := by
          have hcomm2 : (connections rest).countP (matchesPair a b)
              = (connections rest).countP (matchesPair b a) :=
            List.countP_congr (fun c _ => by rw [matchesPair_comm a b c])
          rw [hcomm2]
          exact countP_connections_zero hnods.1
        rw [hcomm, hzero,
          countP_connsFrom_head hnods.2 ha2 (fun h => hab h.symm)]
        by_cases hs : 0 < (sharedTags a b).length
        · rw [if_pos ((sharedTags_pos_comm a b).mp hs), if_pos hs]
        · rw [if_neg (fun h => hs ((sharedTags_pos_comm a b).mpr h)), if_neg hs]
      · have hma : m.id ≠ a.id := by
          intro h
          exact absurd (List.mem_map.mpr ⟨a, ha2, h.symm⟩) hnods.1
        have hmb : m.id ≠ b.id := by
          intro h
          exact absurd (List.mem_map.mpr ⟨b, hb2, h.symm⟩) hnods.1
        rw [countP_connsFrom_other hma hmb, ih hnods.2 ha2 hb2]
        omega

/-- With duplicate-free ids no generated connection is a self loop. -/
lemma connections_no_self {ms : List RecallFile}
    (hids : (ms.map (fun m => m.id)).Nodup) {c : Connection}
    (hc : c ∈ connections ms) : c.fromId ≠ c.toId := by
  induction ms with
  | nil => simp [connections] at hc
  | cons m rest ih =>
    rw [List.map_cons, List.nodup_cons] at hids
    have hconn : connections (m :: rest) = connsFrom m rest ++ connections rest := rfl
    rw [hconn] at hc
    rcases List.mem_append.mp hc with h | h
    · obtain ⟨m2, hm2, hs, hceq⟩ := mem_connsFrom.mp h
      subst hceq
      intro h
      exact absurd (List.mem_map.mpr ⟨m2, hm2, h.symm⟩) hids.1
    · exact ih hids.2 h

/-- Every connection matching an unordered pair carries the strength
min(shared count, 3) of that pair, provided tags are duplicate-free. -/
lemma connections_strength {ms : List RecallFile}
    (hids : (ms.map (fun m => m.id)).Nodup)
    (htags : ∀ m ∈ ms, m.metadata.tags.Nodup) {a b : RecallFile}
    (ha : a ∈ ms) (hb : b ∈ ms) {c : Connection}
    (hc : c ∈ connections ms) (hm : matchesPair a b c = true) :
    c.strength = min (sharedTags a b).length 3 := by
  induction ms with
  | nil => simp [connections] at hc
  | cons m rest ih =>
    have hnods := hids
    rw [List.map_cons, List.nodup_cons] at hnods
    have hconn : connections (m :: rest) = connsFrom m rest ++ connections rest := rfl
    rw [hconn] at hc
    rcases List.mem_append.mp hc with h | h
    · obtain ⟨m2, hm2, hs, hceq⟩ := mem_connsFrom.mp h
      subst hceq
      simp only [matchesPair, Bool.or_eq_true, Bool.and_eq_true, beq_iff_eq] at hm
      rcases hm with ⟨hfa, htb⟩ | ⟨hfb, hta⟩
      · have hma : a = m :=
          eq_of_mem_id hids ha (List.mem_cons_self m rest) hfa.symm
        have hmb : m2 = b :=
          eq_of_mem_id hids (List.mem_cons_of_mem m hm2) hb htb
        rw [hma, ← hmb]
      · have hmb : b = m :=
          eq_of_mem_id hids hb (List.mem_cons_self m rest) hfb.symm
        have hma : m2 = a :=
          eq_of_mem_id hids (List.mem_cons_of_mem m hm2) ha hta
        rw [hmb, ← hma,
          sharedTags_length_comm (htags m (List.mem_cons_self m rest))
            (htags m2 (List.mem_cons_of_mem m hm2))]
    · have hend := connections_endpoints h
      have hpair : (c.fromId = a.id ∧ c.toId = b.id)
          ∨ (c.fromId = b.id ∧ c.toId = a.id) := by
        simpa [matchesPair, Bool.or_eq_true, Bool.and_eq_true, beq_iff_eq] using hm
      have hmemid : ∀ x : RecallFile, x ∈ m :: rest →
          x.id ∈ rest.map (fun m => m.id) → x ∈ rest := by
        intro x hx hxid
        obtain ⟨y, hy, hyid⟩ := List.mem_map.mp hxid
        have : y = x :=
          eq_of_mem_id hids (List.mem_cons_of_mem m hy) hx hyid
        exact this ▸ hy
      have haid : a.id ∈ rest.map (fun m => m.id) := by
        rcases hpair with ⟨h1, _⟩ | ⟨_, h2⟩
        · exact h1 ▸ hend.1
        · exact h2 ▸ hend.2
      have hbid : b.id ∈ rest.map (fun m => m.id) := by
        rcases hpair with ⟨_, h2⟩ | ⟨h1, _⟩
        · exact h2 ▸ hend.2
        · exact h1 ▸ hend.1
      exact ih hnods.2 (fun x hx => htags x (List.mem_cons_of_mem m hx))
        (hmemid a ha haid) (hmemid b hb hbid) h

/-- C8 as amended: over a memory list with pairwise distinct ids and
duplicate-free tag lists, exactly one connection is generated per unordered
pair of distinct memories sharing at least one tag and none for pairs
sharing no tag, every connection matching a pair carries strength
min(k, 3) for k the number of distinct shared tags, and no memory is ever
connected to itself. -/
theorem connections_pairwise (ms : List RecallFile)
    (hids : (ms.map (fun m => m.id)).Nodup)
    (htags : ∀ m ∈ ms, m.metadata.tags.Nodup) :
    (∀ a ∈ ms, ∀ b ∈ ms, a.id ≠ b.id →
      (connections ms).countP (matchesPair a b)
        = if 0 < (sharedTags a b).length then 1 else 0)
    ∧ (∀ a ∈ ms, ∀ b ∈ ms, ∀ c ∈ connections ms, matchesPair a b c = true →
      c.strength = min (sharedTagCount a b) 3)
    ∧ (∀ c ∈ connections ms, c.fromId ≠ c.toId) := by
  refine ⟨?_, ?_, ?_⟩
  · intro a ha b hb hab
    exact connections_countP hids ha hb hab
  · intro a ha b hb c hc hm
    rw [← sharedTags_length_eq_count (htags a ha)]
    exact connections_strength hids htags ha hb hc hm
  · intro c hc
    exact connections_no_self hids hc

/-- First memory of the C8 witness list. -/
def tagMemoryA : RecallFile :=
  { id := "1", title := "nA", description := "", type := RecallType.TEXT
  , content := "", thumbnail := "", createdAt := 0, updatedAt := 0
  , metadata := { tags := ["x", "y"], mood := "neutral" }
  , history := [] }

/-- Second memory of the C8 witness list. -/
def tagMemoryB : RecallFile :=
  { id := "2", title := "nB", description := "", type := RecallType.TEXT
  , content := "", thumbnail := "", createdAt := 0, updatedAt := 0
  , metadata := { tags := ["y", "z"], mood := "neutral" }
  , history := [] }

/-- Witness for C8 as amended: two duplicate-free memories sharing the tag y
yield exactly one matching connection. -/
theorem connections_pairwise_witness :
    (([tagMemoryA, tagMemoryB].map (fun m => m.id)).Nodup)
    ∧ (connections [tagMemoryA, tagMemoryB]).countP
        (matchesPair tagMemoryA tagMemoryB)
      = if 0 < (sharedTags tagMemoryA tagMemoryB).length then 1 else 0 :=
  ⟨by decide,
    (connections_pairwise [tagMemoryA, tagMemoryB] (by decide) (by decide)).1
      tagMemoryA (by decide) tagMemoryB (by decide) (by decide)⟩
